import Mathlib

/-!
Shallow embedding of the `jdai1/codenames` game engine
(`engine/game/state.py`, `engine/game/events.py`, `engine/game/winner.py`,
`engine/game_main.py`, `run_agents.py`).

Python exceptions are embedded as `Except` error results.  Since the Python
state objects are mutated in place and a raised exception keeps every
mutation performed before the `raise`, each state-machine operation returns
`Except Err α × GameState`: the second component is the state after the call,
also on the error path.

The modules `engine/game/base.py`, `board.py`, `card.py`, `color.py`,
`move.py`, `player.py`, `score.py` and `exceptions.py` are not among the
sources; the definitions taken from them are modelled from the spec and say
so in their doc comment.  The four LLM message-history fields of `GameState`
(`blue_team_operative_history`, ...) are never touched by any embedded
operation and are elided.
-/

namespace Codenames

/-- Modelled from the spec: `engine/game/color.py` is missing from the
sources.  The two playing teams (spec: TEAM_A / TEAM_B, source names
BLUE / RED). -/
inductive TeamColor where
  | BLUE
  | RED
deriving DecidableEq, Repr

/-- Modelled from the spec: `engine/game/color.py` is missing from the
sources.  `TeamColor.opponent` flips the team. -/
def TeamColor.opponent : TeamColor → TeamColor
  | TeamColor.BLUE => TeamColor.RED
  | TeamColor.RED => TeamColor.BLUE

/-- Modelled from the spec: `engine/game/color.py` is missing from the
sources.  Card affiliation: the two team colors, GRAY (neutral) and BLACK
(the assassin card). -/
inductive CardColor where
  | BLUE
  | RED
  | GRAY
  | BLACK
deriving DecidableEq, Repr

/-- Modelled from the spec: the card color a team's own cards carry. -/
def TeamColor.as_card_color : TeamColor → CardColor
  | TeamColor.BLUE => CardColor.BLUE
  | TeamColor.RED => CardColor.RED

/-- Modelled from the spec: `engine/game/player.py` is missing from the
sources.  The two player roles. -/
inductive PlayerRole where
  | HINTER
  | GUESSER
deriving DecidableEq, Repr

/-- Modelled from the spec: `PlayerRole.other` toggles the role. -/
def PlayerRole.other : PlayerRole → PlayerRole
  | PlayerRole.HINTER => PlayerRole.GUESSER
  | PlayerRole.GUESSER => PlayerRole.HINTER

/-- Split a character list into its maximal whitespace-free words
(structural-recursion counterpart of splitting on whitespace runs; the
accumulator holds the current word reversed). -/
def wordsAux : List Char → List Char → List (List Char)
  | [], acc => if acc = [] then [] else [acc.reverse]
  | c :: cs, acc =>
      if c.isWhitespace then
        if acc = [] then wordsAux cs [] else acc.reverse :: wordsAux cs []
      else wordsAux cs (c :: acc)

/-- Join words with single spaces. -/
def joinWords : List (List Char) → List Char
  | [] => []
  | [w] => w
  | w :: ws => w ++ ' ' :: joinWords ws

/-- Python `str.lower()` on ASCII text. -/
def pyLower (s : String) : String :=
  String.mk (s.data.map Char.toLower)

/-- Python `str.strip()`: drop leading and trailing whitespace. -/
def pyStrip (s : String) : String :=
  String.mk (((s.data.dropWhile Char.isWhitespace).reverse.dropWhile Char.isWhitespace).reverse)

/-- Collapse whitespace runs to single spaces, dropping leading/trailing
whitespace (`re.sub(r'\s+', ' ', ·)` on an already stripped string). -/
def collapse_ws (s : String) : String :=
  String.mk (joinWords (wordsAux s.data []))

/-- Modelled from the spec: `canonical_format` of `engine/game/base.py` is
missing from the sources.  Spec §4.1: trim whitespace, lowercase, collapse
internal whitespace runs to one space. -/
def canonical_format (s : String) : String :=
  collapse_ws (pyLower s)

/-- Modelled from the spec: `engine/game/card.py` is missing from the
sources.  A card: word, team affiliation, revealed flag. -/
structure Card where
  word : String
  color : CardColor
  revealed : Bool
deriving DecidableEq, Repr

/-- Modelled from the spec: `engine/game/board.py` is missing from the
sources.  A board is an ordered sequence of cards. -/
structure Board where
  cards : List Card
deriving DecidableEq, Repr

/-- Modelled from the spec: the board's word list, canonicalized
(spec §4.1 applies canonicalization to every word comparison). -/
def Board.all_words (b : Board) : List String :=
  b.cards.map (fun c => canonical_format c.word)

/-- Modelled from the spec: the cards affiliated with the BLUE team. -/
def Board.blue_cards (b : Board) : List Card :=
  b.cards.filter (fun c => c.color = CardColor.BLUE)

/-- Modelled from the spec: the cards affiliated with the RED team. -/
def Board.red_cards (b : Board) : List Card :=
  b.cards.filter (fun c => c.color = CardColor.RED)

/-- Modelled from the spec: the revealed cards of a given color. -/
def Board.revealed_cards_for_color (b : Board) (color : CardColor) : List Card :=
  b.cards.filter (fun c => c.color = color ∧ c.revealed = true)

/-- Modelled from the spec: a clean board has no revealed card
(`new_game_state` requires `board.is_clean`). -/
def Board.is_clean (b : Board) : Bool :=
  b.cards.all (fun c => c.revealed = false)

/-- Modelled from the spec: `find_card_index(word)` resolves a word to a
board index, comparing canonicalized words (spec §4.1: guess lookup is
canonicalized); `none` embeds `CardNotFoundError`. -/
def Board.find_card_index (b : Board) (word : String) : Option Nat :=
  b.cards.findIdx? (fun c => canonical_format c.word = canonical_format word)

/-- Reveal the card at `i` (used by `GameState._reveal_guessed_card`). -/
def Board.reveal_at (b : Board) (i : Nat) : Board :=
  ⟨b.cards.set i (match b.cards.get? i with
    | some c => { c with revealed := true }
    | none => ⟨"", CardColor.GRAY, false⟩)⟩

/-- Modelled from the spec: `engine/game/score.py` is missing from the
sources.  Per-team score: `total` fixed at game start, `revealed`
monotonically non-decreasing. -/
structure TeamScore where
  total : Nat
  revealed : Nat
deriving DecidableEq, Repr

structure Score where
  blue : TeamScore
  red : TeamScore
deriving DecidableEq, Repr

/-- Modelled from the spec: `Score.add_point(team)` increments that team's
`revealed` and reports whether the team reached its total
(spec §4.2: "if that team's revealed == total, winner = that team"). -/
def Score.add_point (s : Score) (team : TeamColor) : Score × Bool :=
  match team with
  | TeamColor.BLUE =>
      let ts : TeamScore := { s.blue with revealed := s.blue.revealed + 1 }
      ({ s with blue := ts }, ts.revealed = ts.total)
  | TeamColor.RED =>
      let ts : TeamScore := { s.red with revealed := s.red.revealed + 1 }
      ({ s with red := ts }, ts.revealed = ts.total)

/-- The per-team score record for a team color. -/
def Score.for_team (s : Score) : TeamColor → TeamScore
  | TeamColor.BLUE => s.blue
  | TeamColor.RED => s.red

/-- `WinningReason` from `engine/game/winner.py` (the spec calls
`OPPONENT_HIT_BLACK` "OPPONENT_HIT_ASSASSIN": BLACK is the assassin card). -/
inductive WinningReason where
  | TARGET_SCORE_REACHED
  | OPPONENT_HIT_BLACK
  | OPPONENT_QUIT
deriving DecidableEq, Repr

/-- `Winner` from `engine/game/winner.py`. -/
structure Winner where
  team_color : TeamColor
  reason : WinningReason
deriving DecidableEq, Repr

/-- Modelled from the spec: `Hint` of `engine/game/move.py` is missing from
the sources: a raw hint `{word, card_amount}`. -/
structure Hint where
  word : String
  card_amount : Nat
deriving DecidableEq, Repr

/-- Modelled from the spec: `Guess` of `engine/game/move.py` is missing from
the sources: a board index or the `PASS_GUESS` sentinel. -/
inductive Guess where
  | index (card_index : Nat)
  | passSentinel
deriving DecidableEq, Repr

/-- Modelled from the spec: `GivenHint` of `engine/game/move.py` is missing
from the sources; `GameState.process_hint` constructs it with the
canonicalized word, the card amount and the hinting team. -/
structure GivenHint where
  word : String
  card_amount : Nat
  team_color : TeamColor
deriving DecidableEq, Repr

instance : Inhabited GivenHint := ⟨⟨"", 0, TeamColor.BLUE⟩⟩

/-- Modelled from the spec: `GivenHint.formatted_word` is the canonical form
of the hint word (`run_agents.py` line 154 falls back to
`canonical_format(h.word)` for it). -/
def GivenHint.formatted_word (h : GivenHint) : String :=
  canonical_format h.word

/-- Modelled from the spec: `GivenGuess` of `engine/game/move.py` is missing
from the sources: the active hint together with the revealed card. -/
structure GivenGuess where
  given_hint : GivenHint
  guessed_card : Card
deriving DecidableEq, Repr

/-- Modelled from the spec: the guessing team is the hint's team. -/
def GivenGuess.team (g : GivenGuess) : TeamColor :=
  g.given_hint.team_color

/-- Modelled from the spec: a guess is correct when the revealed card
carries the guessing team's own color. -/
def GivenGuess.correct (g : GivenGuess) : Bool :=
  g.guessed_card.color = g.team.as_card_color

/-- Modelled from the spec: `engine/game/exceptions.py` is missing from the
sources.  The typed errors raised by the state machine. -/
inductive Err where
  | GameIsOver
  | InvalidTurn (msg : String)
  | InvalidHint (msg : String)
  | InvalidGuess (msg : String)
deriving DecidableEq, Repr

instance {ε α : Type} [DecidableEq ε] [DecidableEq α] : DecidableEq (Except ε α) := fun x y =>
  match x, y with
  | Except.ok a, Except.ok b =>
      if h : a = b then Decidable.isTrue (by rw [h])
      else Decidable.isFalse (fun he => by cases he; exact h rfl)
  | Except.ok _, Except.error _ => Decidable.isFalse (fun he => by cases he)
  | Except.error _, Except.ok _ => Decidable.isFalse (fun he => by cases he)
  | Except.error e, Except.error f =>
      if h : e = f then Decidable.isTrue (by rw [h])
      else Decidable.isFalse (fun he => by cases he; exact h rfl)

/-- `ActorType` from `engine/game/events.py`. -/
inductive ActorType where
  | USER
  | LLM
deriving DecidableEq, Repr

/-- `Actor` from `engine/game/events.py` (LLM actors also carry a model
name). -/
structure Actor where
  actor_type : ActorType
  name : String
  model : Option String := none
deriving DecidableEq, Repr

/-- The events of `engine/game/events.py`: `HintEvent`, `GuessEvent`,
`PassEvent`, `ChatEvent`, and any other `GameEvent` subtype (for example the
`OperativeEvent` used by `run_agents.py`), as one inductive.  The wall-clock
`timestamp` field is elided. -/
inductive GameEvent where
  | hintEvent (team_color : TeamColor) (player_role : PlayerRole) (actor : Actor) (hint : GivenHint)
  | guessEvent (team_color : TeamColor) (player_role : PlayerRole) (actor : Actor) (guess : GivenGuess)
  | passEvent (team_color : TeamColor) (player_role : PlayerRole) (actor : Actor)
  | chatEvent (team_color : TeamColor) (player_role : PlayerRole) (actor : Actor) (message : String)
  | otherEvent (team_color : TeamColor) (player_role : PlayerRole) (actor : Actor) (message : Option String)
deriving DecidableEq, Repr

/-- `GameEvent.team_color`. -/
def GameEvent.team_color : GameEvent → TeamColor
  | GameEvent.hintEvent t _ _ _ => t
  | GameEvent.guessEvent t _ _ _ => t
  | GameEvent.passEvent t _ _ => t
  | GameEvent.chatEvent t _ _ _ => t
  | GameEvent.otherEvent t _ _ _ => t

/-- `TeamHistory` from `engine/game/events.py`. -/
structure TeamHistory where
  team_color : TeamColor
  hints_given : List GameEvent := []
  guesses_made : List GameEvent := []
  chat_messages : List GameEvent := []
  passes : List GameEvent := []
  all_events : List GameEvent := []
deriving DecidableEq, Repr

/-- `TeamHistory.add_hint`. -/
def TeamHistory.add_hint (h : TeamHistory) (e : GameEvent) : TeamHistory :=
  { h with hints_given := h.hints_given ++ [e], all_events := h.all_events ++ [e] }

/-- `TeamHistory.add_guess`. -/
def TeamHistory.add_guess (h : TeamHistory) (e : GameEvent) : TeamHistory :=
  { h with guesses_made := h.guesses_made ++ [e], all_events := h.all_events ++ [e] }

/-- `TeamHistory.add_chat`. -/
def TeamHistory.add_chat (h : TeamHistory) (e : GameEvent) : TeamHistory :=
  { h with chat_messages := h.chat_messages ++ [e], all_events := h.all_events ++ [e] }

/-- `TeamHistory.add_pass`. -/
def TeamHistory.add_pass (h : TeamHistory) (e : GameEvent) : TeamHistory :=
  { h with passes := h.passes ++ [e], all_events := h.all_events ++ [e] }

/-- `GameHistory` from `engine/game/events.py`. -/
structure GameHistory where
  blue_team : TeamHistory := { team_color := TeamColor.BLUE }
  red_team : TeamHistory := { team_color := TeamColor.RED }
  global_events : List GameEvent := []
deriving DecidableEq, Repr

/-- `GameHistory.get_team_history`. -/
def GameHistory.get_team_history (h : GameHistory) (team : TeamColor) : TeamHistory :=
  if team = TeamColor.BLUE then h.blue_team else h.red_team

/-- Replace one team's history. -/
def GameHistory.set_team_history (h : GameHistory) (team : TeamColor) (th : TeamHistory) : GameHistory :=
  if team = TeamColor.BLUE then { h with blue_team := th } else { h with red_team := th }

/-- `GameHistory.add_event`: fan the event out into its team's sub-kind
bucket (the `isinstance` chain of `events.py` lines 160-169) and the global
timeline. -/
def GameHistory.add_event (h : GameHistory) (e : GameEvent) : GameHistory :=
  let th := h.get_team_history e.team_color
  let th' :=
    match e with
    | GameEvent.hintEvent _ _ _ _ => th.add_hint e
    | GameEvent.guessEvent _ _ _ _ => th.add_guess e
    | GameEvent.chatEvent _ _ _ _ => th.add_chat e
    | GameEvent.passEvent _ _ _ => th.add_pass e
    | GameEvent.otherEvent _ _ _ _ => { th with all_events := th.all_events ++ [e] }
  let h' := h.set_team_history e.team_color th'
  { h' with global_events := h'.global_events ++ [e] }

/-- `GameState` from `engine/game/state.py` (the four LLM message-history
fields are elided; no embedded operation touches them).  `left_guesses` is a
Python `int`, embedded as `Int`. -/
structure GameState where
  board : Board
  score : Score
  current_team_color : TeamColor
  current_player_role : PlayerRole := PlayerRole.HINTER
  given_hints : List GivenHint := []
  given_guesses : List GivenGuess := []
  history : GameHistory := {}
  left_guesses : Int := 0
  winner : Option Winner := none
  raw_hints : List Hint := []
deriving DecidableEq, Repr

/-- `BaseGameState.given_hint_words`. -/
def GameState.given_hint_words (s : GameState) : List String :=
  s.given_hints.map (fun h => h.formatted_word)

/-- `BaseGameState.illegal_hint_words`: all board words plus all previously
given hint words. -/
def GameState.illegal_hint_words (s : GameState) : List String :=
  s.board.all_words ++ s.given_hint_words

/-- `GameState.last_given_hint` (`given_hints[-1]`; Python raises
`IndexError` on an empty list — theorems about it assume `given_hints ≠ []`,
which holds whenever the guesser is on turn). -/
def GameState.last_given_hint (s : GameState) : GivenHint :=
  s.given_hints.getLastD default

/-- `GameState.is_game_over`. -/
def GameState.is_game_over (s : GameState) : Bool :=
  s.winner.isSome

/-- `GameState._end_turn` (without the pass-event recording, which
`process_pass` performs first): zero `left_guesses`, flip the team, and —
when `switch_role` — toggle the role. -/
def GameState.end_turn (s : GameState) (switch_role : Bool) : GameState :=
  { s with
    left_guesses := 0
    current_team_color := s.current_team_color.opponent
    current_player_role :=
      if switch_role then s.current_player_role.other else s.current_player_role }

/-- `GameState._update_score`: gray card — nothing; black card — the
guesser's opponent wins; otherwise credit the scoring team and declare a
winner when it reached its total. -/
def GameState.update_score (s : GameState) (given_guess : GivenGuess) : GameState :=
  let card_color := given_guess.guessed_card.color
  if card_color = CardColor.GRAY then s
  else if card_color = CardColor.BLACK then
    { s with winner := some ⟨given_guess.team.opponent, WinningReason.OPPONENT_HIT_BLACK⟩ }
  else
    let score_team_color :=
      if given_guess.correct then given_guess.team else given_guess.team.opponent
    let (score', game_ended) := s.score.add_point score_team_color
    let s := { s with score := score' }
    if game_ended then
      { s with winner := some ⟨score_team_color, WinningReason.TARGET_SCORE_REACHED⟩ }
    else s

/-- `GameState.process_hint` (`state.py` lines 168-194).  NOTE: the raw hint
is appended to `raw_hints` before the legality check, so an `InvalidHint`
rejection keeps that append. -/
def GameState.process_hint (s : GameState) (hint : Hint) (actor : Actor) :
    Except Err GivenHint × GameState :=
  if s.is_game_over then (Except.error Err.GameIsOver, s)
  else if s.current_player_role ≠ PlayerRole.HINTER then
    (Except.error (Err.InvalidTurn "not the Hinter turn"), s)
  else
    let s := { s with raw_hints := s.raw_hints ++ [hint] }
    let formatted_hint_word := canonical_format hint.word
    if formatted_hint_word ∈ s.illegal_hint_words then
      (Except.error (Err.InvalidHint "hint word is on board or was already used"), s)
    else
      let given_hint : GivenHint :=
        ⟨formatted_hint_word, hint.card_amount, s.current_team_color⟩
      let s := { s with given_hints := s.given_hints ++ [given_hint] }
      let hint_event :=
        GameEvent.hintEvent s.current_team_color s.current_player_role actor given_hint
      let s := { s with history := s.history.add_event hint_event }
      let s := { s with
        left_guesses := (given_hint.card_amount : Int) + 1
        current_player_role := PlayerRole.GUESSER }
      (Except.ok given_hint, s)

/-- `GameState.process_pass` (`state.py` lines 196-203): record a pass event
and end the turn. -/
def GameState.process_pass (s : GameState) (actor : Actor) :
    Except Err Unit × GameState :=
  if s.is_game_over then (Except.error Err.GameIsOver, s)
  else if s.current_player_role ≠ PlayerRole.GUESSER then
    (Except.error (Err.InvalidTurn "not the Guesser turn"), s)
  else
    let pass_event := GameEvent.passEvent s.current_team_color s.current_player_role actor
    let s := { s with history := s.history.add_event pass_event }
    (Except.ok (), s.end_turn true)

/-- `GameState._reveal_guessed_card` (`state.py` lines 242-250): look the
index up (`InvalidGuess` when out of range), reject an already revealed
card, else flip its `revealed` flag. -/
def GameState.reveal_guessed_card (s : GameState) (card_index : Nat) :
    Except Err Card × GameState :=
  match s.board.cards.get? card_index with
  | none => (Except.error (Err.InvalidGuess "card index out of range"), s)
  | some c =>
      if c.revealed then (Except.error (Err.InvalidGuess "card already revealed"), s)
      else
        let c' := { c with revealed := true }
        (Except.ok c', { s with board := s.board.reveal_at card_index })

/-- `GameState.process_guess` (`state.py` lines 205-240). -/
def GameState.process_guess (s : GameState) (guess : Guess) (actor : Actor) :
    Except Err GivenGuess × GameState :=
  if s.is_game_over then (Except.error Err.GameIsOver, s)
  else if s.current_player_role ≠ PlayerRole.GUESSER then
    (Except.error (Err.InvalidTurn "not the Guesser turn"), s)
  else
    match guess with
    | Guess.passSentinel => (Except.error (Err.InvalidGuess "use process_pass to pass"), s)
    | Guess.index card_index =>
        match s.reveal_guessed_card card_index with
        | (Except.error e, s) => (Except.error e, s)
        | (Except.ok guessed_card, s) =>
            let given_guess : GivenGuess := ⟨s.last_given_hint, guessed_card⟩
            let s := { s with given_guesses := s.given_guesses ++ [given_guess] }
            let guess_event :=
              GameEvent.guessEvent s.current_team_color s.current_player_role actor given_guess
            let s := { s with history := s.history.add_event guess_event }
            let s := s.update_score given_guess
            if s.is_game_over then (Except.ok given_guess, s.end_turn true)
            else if ¬given_guess.correct then (Except.ok given_guess, s.end_turn true)
            else
              let s := { s with left_guesses := s.left_guesses - 1 }
              if s.left_guesses > 0 then (Except.ok given_guess, s)
              else (Except.ok given_guess, s.end_turn true)

/-- `build_score` (`state.py` lines 322-326). -/
def build_score (board : Board) : Score :=
  { blue := ⟨board.blue_cards.length, (board.revealed_cards_for_color CardColor.BLUE).length⟩
    red := ⟨board.red_cards.length, (board.revealed_cards_for_color CardColor.RED).length⟩ }

/-- `_determine_first_team` (`state.py` lines 329-332): BLUE when it has at
least as many cards as RED, else RED. -/
def determine_first_team (board : Board) : TeamColor :=
  if board.blue_cards.length ≥ board.red_cards.length then TeamColor.BLUE
  else TeamColor.RED

/-- `new_game_state` (`state.py` lines 301-319), board-supplied path:
require a clean board, derive the score and the first team, start in the
hinter role.  The `ValueError` for an unclean board is the `error` case. -/
def new_game_state (board : Board) : Except String GameState :=
  if ¬board.is_clean then Except.error "Board must be clean."
  else
    Except.ok
      { board := board
        score := build_score board
        current_team_color := determine_first_team board
        current_player_role := PlayerRole.HINTER }

/-- The message text of an embedded exception (used where Python formats the
caught exception into a chat notice). -/
def Err.message : Err → String
  | Err.GameIsOver => "game is over"
  | Err.InvalidTurn m => m
  | Err.InvalidHint m => m
  | Err.InvalidGuess m => m

/-- `sanitize_word` (`game_main.py` lines 26-52): strip, require only
English letters and whitespace (the regex `^[a-zA-Z\s]+$`, so at least one
character), lowercase, collapse whitespace runs to one space; the
`ValueError` is the `error` case. -/
def sanitize_word (word : String) : Except String String :=
  let w := pyStrip word
  if w ≠ "" ∧ w.data.all (fun c => c.isAlpha ∨ c.isWhitespace) then
    Except.ok (collapse_ws (pyLower w))
  else
    Except.error "Word must only contain English letters and spaces"

/-- `GuessResult` from `engine/schema.py` (the fields `CodenamesGame.make_guess`
fills in). -/
structure GuessResult where
  success : Bool
  guessed_card : Card
  correct : Bool
  left_guesses : Int
  is_game_over : Bool
  winner : Option Winner
deriving DecidableEq, Repr

/-- `CodenamesGame.make_guess` (`game_main.py` lines 240-280): role check,
sanitize the word, resolve it to a card index, and run
`GameState.process_guess`.  All raised exceptions are embedded as `error`
strings (the coordinator catches them broadly). -/
def game_make_guess (s : GameState) (word : String) (actor : Actor) :
    Except String GuessResult × GameState :=
  if s.current_player_role ≠ PlayerRole.GUESSER then
    (Except.error "Not the guesser's turn", s)
  else
    match sanitize_word word with
    | Except.error e => (Except.error ("Invalid word format: " ++ e), s)
    | Except.ok sanitized_word =>
        match s.board.find_card_index sanitized_word with
        | none => (Except.error ("Word '" ++ word ++ "' is not on the board"), s)
        | some card_index =>
            match s.process_guess (Guess.index card_index) actor with
            | (Except.error e, s') => (Except.error e.message, s')
            | (Except.ok given_guess, s') =>
                (Except.ok
                  { success := true
                    guessed_card := given_guess.guessed_card
                    correct := given_guess.correct
                    left_guesses := s'.left_guesses
                    is_game_over := s'.is_game_over
                    winner := s'.winner }, s')

/-- `CodenamesGame.pass_turn` (`game_main.py` lines 282-301): role check,
then `GameState.process_pass`. -/
def game_pass_turn (s : GameState) (actor : Actor) : Except String Unit × GameState :=
  if s.current_player_role ≠ PlayerRole.GUESSER then
    (Except.error "Can only pass during guesser's turn", s)
  else
    match s.process_pass actor with
    | (Except.error e, s') => (Except.error e.message, s')
    | (Except.ok _, s') => (Except.ok (), s')

/-! ### The consensus/voting coordinator (`run_agents.py`) -/

/-- The vote normalization of `collect_majority_vote`
(`run_agents.py` line 302: `v.lower().strip()`). -/
def normalize_vote (v : String) : String :=
  pyStrip (pyLower v)

/-- The tally of one normalized choice among the current votes
(`Counter(v.lower().strip() for v in votes)`). -/
def countVote (votes : List String) (w : String) : Nat :=
  (votes.filter (fun v => normalize_vote v = w)).length

/-- Worker for `firstOccs`: `seen` holds the values already emitted. -/
def firstOccsAux (seen : List String) : List String → List String
  | [] => []
  | v :: vs => if v ∈ seen then firstOccsAux seen vs else v :: firstOccsAux (v :: seen) vs

/-- The distinct values of a list, keeping first occurrences in order (the
iteration order of a Python `Counter`). -/
def firstOccs (l : List String) : List String :=
  firstOccsAux [] l

/-- `Counter.most_common(1)[0]`: the first key (in first-occurrence order)
achieving the maximal count, with its count. -/
def topChoice (count : String → Nat) : List String → Option (String × Nat)
  | [] => none
  | k :: ks =>
      match topChoice count ks with
      | none => some (k, count k)
      | some (bk, bc) => if count k ≥ bc then some (k, count k) else some (bk, bc)

/-- `collect_majority_vote` (`run_agents.py` lines 299-306): empty vote list
— no majority; otherwise take the top normalized choice and return it iff
its count exceeds `quorum // 2`. -/
def collect_majority_vote (votes : List String) (quorum : Nat) : Option String :=
  match topChoice (countVote votes) (firstOccs (votes.map normalize_vote)) with
  | none => none
  | some (w, c) => if c > quorum / 2 then some w else none

/-- One registered guessing agent (name and model, as `run_agents.Agent`
exposes them to the coordinator). -/
structure OperativeAgent where
  name : String
  model : String
deriving DecidableEq, Repr

instance : Inhabited OperativeAgent := ⟨⟨"", ""⟩⟩

/-- One agent response in the coordinator's polling loop
(`result.get("type")`): talk, vote for a word, vote to pass, or anything
unparseable. -/
inductive AgentResponse where
  | talk (message : String)
  | voteWord (word : String)
  | votePass
  | unknown
deriving DecidableEq, Repr

/-- How one invocation of the coordinator's guessing loop ended. -/
inductive ExitKind where
  /-- `get_last_hint()` was `None`. -/
  | noHint
  /-- The team/role changed before polling an agent. -/
  | turnChanged
  /-- A majority voted "pass"; a pass was submitted. -/
  | majorityPass
  /-- A majority guess submission raised; the loop returned. -/
  | majorityGuessFailed
  /-- A majority guess ended the game. -/
  | gameOverExit
  /-- A majority guess ended the turn. -/
  | turnSwitched
  /-- `max_rounds` exhausted: the fallback pass was submitted. -/
  | fallbackPass
deriving DecidableEq, Repr

/-- The result of the embedded `guesser_turn`: final game state, how many
agent polls were made, whether any tally ever crossed the majority check
(`if majority:`), whether a `pass_turn` submission was made, and which exit
was taken. -/
structure CoordResult where
  game : GameState
  polls : Nat
  sawMajority : Bool
  passSubmitted : Bool
  exitKind : ExitKind
deriving Repr

/-- The coordinator's loop state: the game, the per-agent votes
(`votes_by_agent`, insertion-ordered as a Python dict), the number of agent
polls so far, and the majority instrumentation flag. -/
structure LoopSt where
  game : GameState
  votes : List (String × String)
  polls : Nat
  sawMajority : Bool
deriving Repr

/-- `votes_by_agent[name] = w`: overwrite in place (a Python dict keeps the
original insertion position) or append. -/
def updateVote (votes : List (String × String)) (name w : String) : List (String × String) :=
  if votes.any (fun p => p.1 = name) then
    votes.map (fun p => if p.1 = name then (p.1, w) else p)
  else votes ++ [(name, w)]

/-- The fixed context of one `guesser_turn` invocation: the agent-response
oracle (indexed by poll number), the registered agents, the team whose turn
it is, and the consensus actor used for submissions. -/
structure CoordCtx where
  oracle : Nat → AgentResponse
  ops : List OperativeAgent
  team_turn : TeamColor
  teamActor : Actor

/-- Record an `OperativeEvent` in the game history
(`game.state.history.add_event(operative_event)`). -/
def recordOperativeEvent (g : GameState) (team : TeamColor) (actor : Actor)
    (message : Option String) : GameState :=
  { g with history := g.history.add_event (GameEvent.otherEvent team PlayerRole.GUESSER actor message) }

/-- Outcome of processing one agent poll. -/
inductive StepOut where
  /-- A `return` out of `guesser_turn`. -/
  | exitR (r : CoordResult)
  /-- Fall through to the next agent of the round. -/
  | continueSt (st : LoopSt)
  /-- The `break` after a correct in-turn guess: next round, votes cleared. -/
  | breakRound (st : LoopSt)
deriving Repr

instance : Inhabited Card := ⟨⟨"", CardColor.GRAY, false⟩⟩

/-- The `# Check majority after each action` block of `guesser_turn`
(`run_agents.py` lines 537-641): recompute the majority; if one exists
(`if majority:`, so the empty string does not count), submit the decision —
a pass (both outcomes return), or a guess (exceptions return; game over or a
changed turn returns; otherwise clear the votes and break to the next
round). -/
def majorityStep (ctx : CoordCtx) (st : LoopSt) : StepOut :=
  match collect_majority_vote (st.votes.map Prod.snd) ctx.ops.length with
  | none => StepOut.continueSt st
  | some m =>
      if m = "" then StepOut.continueSt st
      else if m = "pass" then
        let (_, g') := game_pass_turn st.game ctx.teamActor
        StepOut.exitR ⟨g', st.polls, true, true, ExitKind.majorityPass⟩
      else
        match game_make_guess st.game m ctx.teamActor with
        | (Except.error _, g') =>
            StepOut.exitR ⟨g', st.polls, true, false, ExitKind.majorityGuessFailed⟩
        | (Except.ok res, g') =>
            if res.is_game_over then
              StepOut.exitR ⟨g', st.polls, true, false, ExitKind.gameOverExit⟩
            else if g'.current_team_color ≠ ctx.team_turn ∨
                g'.current_player_role ≠ PlayerRole.GUESSER then
              StepOut.exitR ⟨g', st.polls, true, false, ExitKind.turnSwitched⟩
            else
              StepOut.breakRound { game := g', votes := [], polls := st.polls, sawMajority := true }

/-- One agent poll of the coordinator's round (`run_agents.py` lines
365-536): exit if the turn changed; otherwise consume one oracle response —
a talk is recorded and tallied; a word vote is validated against the board
(rejections `continue` without a tally), recorded and tallied; a pass vote
is recorded as the vote "pass" and tallied; anything else just falls
through to the tally. -/
def stepAgent (ctx : CoordCtx) (ag : OperativeAgent) (st : LoopSt) : StepOut :=
  if st.game.current_team_color ≠ ctx.team_turn ∨
      st.game.current_player_role ≠ PlayerRole.GUESSER then
    StepOut.exitR ⟨st.game, st.polls, st.sawMajority, false, ExitKind.turnChanged⟩
  else
    let resp := ctx.oracle st.polls
    let st := { st with polls := st.polls + 1 }
    let actor : Actor := ⟨ActorType.LLM, ag.name, some ag.model⟩
    match resp with
    | AgentResponse.talk msg =>
        let st := { st with game := recordOperativeEvent st.game ctx.team_turn actor (some msg) }
        majorityStep ctx st
    | AgentResponse.voteWord w =>
        let word := pyStrip w
        if word = "" then majorityStep ctx st
        else
          match st.game.board.find_card_index word with
          | none => StepOut.continueSt st
          | some card_index =>
              if (st.game.board.cards.getD card_index default).revealed then
                StepOut.continueSt st
              else
                let st := { st with game := recordOperativeEvent st.game ctx.team_turn actor (some word) }
                let st := { st with votes := updateVote st.votes ag.name word }
                majorityStep ctx st
    | AgentResponse.votePass =>
        let st := { st with game := recordOperativeEvent st.game ctx.team_turn actor none }
        let st := { st with votes := updateVote st.votes ag.name "pass" }
        majorityStep ctx st
    | AgentResponse.unknown => majorityStep ctx st

/-- Outcome of one round's inner `for agent in ops` loop. -/
inductive InnerOut where
  | exit (r : CoordResult)
  | nextRound (st : LoopSt)
deriving Repr

/-- The inner `for agent in ops` loop of one round. -/
def agentLoop (ctx : CoordCtx) : List OperativeAgent → LoopSt → InnerOut
  | [], st => InnerOut.nextRound st
  | ag :: rest, st =>
      match stepAgent ctx ag st with
      | StepOut.exitR r => InnerOut.exit r
      | StepOut.breakRound st' => InnerOut.nextRound st'
      | StepOut.continueSt st' => agentLoop ctx rest st'

/-- The `for round_i in range(max_rounds)` loop, plus the fallback after it
(`run_agents.py` lines 640-653): with the rounds exhausted and no early
return, the coordinator unilaterally submits a pass (both the success and
the failure branch return). -/
def roundLoop (ctx : CoordCtx) : Nat → LoopSt → CoordResult
  | 0, st =>
      let (_, g') := game_pass_turn st.game ctx.teamActor
      ⟨g', st.polls, st.sawMajority, true, ExitKind.fallbackPass⟩
  | fuel + 1, st =>
      match agentLoop ctx ctx.ops st with
      | InnerOut.exit r => r
      | InnerOut.nextRound st' => roundLoop ctx fuel st'

/-- `TeamColor` rendered as `_name` renders a Python enum. -/
def TeamColor.pyName : TeamColor → String
  | TeamColor.BLUE => "BLUE"
  | TeamColor.RED => "RED"

/-- `guesser_turn` (`run_agents.py` lines 309-653), with the external
`agent.run` calls abstracted into an oracle of one response per poll:
return immediately when no hint is active, else run up to `max_rounds`
rounds of sequential agent polling with an after-each-action majority
check, falling back to a unilateral pass.  The consensus actor's model is
`ops[0].model` (lines 545 and 641), here totalized as
`(ops.headD default).model`: with an empty `ops` list Python raises
`IndexError` at `ops[0]` before submitting anything, so theorems about the
submission behaviour assume `ops ≠ []`. -/
def guesser_turn (oracle : Nat → AgentResponse) (g : GameState)
    (ops : List OperativeAgent) (max_rounds : Nat) : CoordResult :=
  let team_turn := g.current_team_color
  let teamActor : Actor :=
    ⟨ActorType.LLM, team_turn.pyName ++ "-team", some (ops.headD default).model⟩
  let ctx : CoordCtx := ⟨oracle, ops, team_turn, teamActor⟩
  if g.given_hints = [] then ⟨g, 0, false, false, ExitKind.noHint⟩
  else roundLoop ctx max_rounds ⟨g, [], 0, false⟩

/-! ### Concrete fixtures (the spec §8 four-card board) used by witnesses -/

/-- The spec §8 test board: `{OCEAN: BLUE, RIVER: BLUE, MARS: neutral,
CODE: assassin}`. -/
def exBoard : Board :=
  ⟨[⟨"ocean", CardColor.BLUE, false⟩, ⟨"river", CardColor.BLUE, false⟩,
    ⟨"mars", CardColor.GRAY, false⟩, ⟨"code", CardColor.BLACK, false⟩]⟩

def exActor : Actor := ⟨ActorType.USER, "tester", none⟩

/-- The fresh game state on `exBoard` (what `new_game_state exBoard`
produces). -/
def exState0 : GameState :=
  { board := exBoard
    score := ⟨⟨2, 0⟩, ⟨0, 0⟩⟩
    current_team_color := TeamColor.BLUE }

def exHintWater : Hint := ⟨"water", 2⟩

/-- `exState0` after the hint `("water", 2)`: BLUE guesser turn with
`left_guesses = 3`. -/
def exState1 : GameState := (exState0.process_hint exHintWater exActor).2

/-- A finished game state (RED won by assassin). -/
def exOverState : GameState :=
  { exState0 with winner := some ⟨TeamColor.RED, WinningReason.OPPONENT_HIT_BLACK⟩ }

/-- An oracle whose agents never produce a parseable action. -/
def oracleUnknown : Nat → AgentResponse := fun _ => AgentResponse.unknown

def exOperative : OperativeAgent := ⟨"blue-op-1", "m"⟩

/-! ### Helper lemmas -/

/-- Branch-level characterization of `process_hint` (definitional). -/
theorem process_hint_eq (s : GameState) (hint : Hint) (actor : Actor) :
    s.process_hint hint actor =
      (if s.is_game_over then (Except.error Err.GameIsOver, s)
      else if s.current_player_role ≠ PlayerRole.HINTER then
        (Except.error (Err.InvalidTurn "not the Hinter turn"), s)
      else if canonical_format hint.word ∈ s.illegal_hint_words then
        (Except.error (Err.InvalidHint "hint word is on board or was already used"),
          { s with raw_hints := s.raw_hints ++ [hint] })
      else
        (Except.ok ⟨canonical_format hint.word, hint.card_amount, s.current_team_color⟩,
          { s with
            raw_hints := s.raw_hints ++ [hint]
            given_hints := s.given_hints ++
              [⟨canonical_format hint.word, hint.card_amount, s.current_team_color⟩]
            history := s.history.add_event
              (GameEvent.hintEvent s.current_team_color s.current_player_role actor
                ⟨canonical_format hint.word, hint.card_amount, s.current_team_color⟩)
            left_guesses := (hint.card_amount : Int) + 1
            current_player_role := PlayerRole.GUESSER })) := rfl

/-- Branch-level characterization of `process_pass` (definitional). -/
theorem process_pass_eq (s : GameState) (actor : Actor) :
    s.process_pass actor =
      (if s.is_game_over then (Except.error Err.GameIsOver, s)
      else if s.current_player_role ≠ PlayerRole.GUESSER then
        (Except.error (Err.InvalidTurn "not the Guesser turn"), s)
      else
        (Except.ok (),
          { s with
            history := s.history.add_event
              (GameEvent.passEvent s.current_team_color s.current_player_role actor)
            left_guesses := 0
            current_team_color := s.current_team_color.opponent
            current_player_role := s.current_player_role.other })) := rfl

/-- Branch-level characterization of `process_guess` on the pass sentinel
(definitional). -/
theorem process_guess_sentinel_eq (s : GameState) (actor : Actor) :
    s.process_guess Guess.passSentinel actor =
      (if s.is_game_over then (Except.error Err.GameIsOver, s)
      else if s.current_player_role ≠ PlayerRole.GUESSER then
        (Except.error (Err.InvalidTurn "not the Guesser turn"), s)
      else (Except.error (Err.InvalidGuess "use process_pass to pass"), s)) := rfl

/-- Branch-level characterization of `process_guess` on a card index. -/
theorem process_guess_eq (s : GameState) (i : Nat) (actor : Actor) :
    s.process_guess (Guess.index i) actor =
      (if s.is_game_over then (Except.error Err.GameIsOver, s)
      else if s.current_player_role ≠ PlayerRole.GUESSER then
        (Except.error (Err.InvalidTurn "not the Guesser turn"), s)
      else
        match s.board.cards.get? i with
        | none => (Except.error (Err.InvalidGuess "card index out of range"), s)
        | some c =>
          if c.revealed then (Except.error (Err.InvalidGuess "card already revealed"), s)
          else
            let gg : GivenGuess := ⟨s.last_given_hint, { c with revealed := true }⟩
            let s₂ : GameState :=
              { s with
                board := s.board.reveal_at i
                given_guesses := s.given_guesses ++ [gg]
                history := s.history.add_event
                  (GameEvent.guessEvent s.current_team_color s.current_player_role actor gg) }
            let s₃ := s₂.update_score gg
            if s₃.is_game_over then (Except.ok gg, s₃.end_turn true)
            else if ¬gg.correct then (Except.ok gg, s₃.end_turn true)
            else if s₃.left_guesses - 1 > 0 then
              (Except.ok gg, { s₃ with left_guesses := s₃.left_guesses - 1 })
            else (Except.ok gg, ({ s₃ with left_guesses := s₃.left_guesses - 1 }).end_turn true)) := by
  unfold GameState.process_guess GameState.reveal_guessed_card
  dsimp only
  cases hc : s.board.cards.get? i with
  | none => rfl
  | some c =>
      obtain ⟨w, col, rev⟩ := c
      cases rev <;> rfl

theorem rejects_when_over (s : GameState) (h : s.is_game_over = true) :
    (∀ hint actor, s.process_hint hint actor = (Except.error Err.GameIsOver, s)) ∧
    (∀ guess actor, s.process_guess guess actor = (Except.error Err.GameIsOver, s)) ∧
    (∀ actor, s.process_pass actor = (Except.error Err.GameIsOver, s)) := by
  refine ⟨fun hint actor => ?_, fun guess actor => ?_, fun actor => ?_⟩ <;>
    simp [GameState.process_hint, GameState.process_guess, GameState.process_pass, h]

/-! ### Claim theorems -/

/-- C1: once a winner is set, every subsequent `process_hint`,
`process_guess` or `process_pass` call fails with `GameIsOver` and returns
the state unchanged (idempotent rejection). -/
theorem game_over_idempotent_rejection (s : GameState) (h : s.is_game_over = true)
    (hint : Hint) (guess : Guess) (actor : Actor) :
    s.process_hint hint actor = (Except.error Err.GameIsOver, s) ∧
    s.process_guess guess actor = (Except.error Err.GameIsOver, s) ∧
    s.process_pass actor = (Except.error Err.GameIsOver, s) :=
  ⟨(rejects_when_over s h).1 hint actor, (rejects_when_over s h).2.1 guess actor,
    (rejects_when_over s h).2.2 actor⟩

theorem game_over_idempotent_rejection_witness :
    exOverState.is_game_over = true ∧
    exOverState.process_hint exHintWater exActor = (Except.error Err.GameIsOver, exOverState) ∧
    exOverState.process_guess (Guess.index 0) exActor = (Except.error Err.GameIsOver, exOverState) ∧
    exOverState.process_pass exActor = (Except.error Err.GameIsOver, exOverState) :=
  ⟨rfl, game_over_idempotent_rejection exOverState rfl exHintWater (Guess.index 0) exActor⟩

/-- C2 counterexample: a hint rejected with `InvalidHint` does mutate the
state — `process_hint` appends the raw hint to `raw_hints` before the
legality check (`state.py` line 173 precedes line 175), so the failed call
leaves `raw_hints` grown. -/
theorem rejected_hint_mutates_raw_hints :
    (exState0.process_hint ⟨"OCEAN ", 2⟩ exActor).1 =
      Except.error (Err.InvalidHint "hint word is on board or was already used") ∧
    (exState0.process_hint ⟨"OCEAN ", 2⟩ exActor).2.raw_hints ≠ exState0.raw_hints := by
  constructor
  · decide
  · intro h
    exact absurd h (by decide)

/-- C2 (amended): a `GameIsOver` or `InvalidTurn` rejection of any action,
and every typed rejection of a pass or a guess, leaves the state unchanged;
an `InvalidHint` rejection leaves every field unchanged except `raw_hints`,
to which the raw hint was appended before validation. -/
theorem failed_calls_leave_state (s : GameState) (hint : Hint) (guess : Guess) (actor : Actor) :
    (∀ e s', s.process_hint hint actor = (Except.error e, s') →
      (∃ msg, e = Err.InvalidHint msg) ∨ s' = s) ∧
    (∀ msg s', s.process_hint hint actor = (Except.error (Err.InvalidHint msg), s') →
      s' = { s with raw_hints := s.raw_hints ++ [hint] }) ∧
    (∀ e s', s.process_pass actor = (Except.error e, s') → s' = s) ∧
    (∀ e s', s.process_guess guess actor = (Except.error e, s') → s' = s) := by
  refine ⟨?_, ?_, ?_, ?_⟩
  · intro e s' h
    rw [process_hint_eq] at h
    split_ifs at h with h1 h2 h3
    · exact Or.inr (congrArg Prod.snd h).symm
    · exact Or.inr (congrArg Prod.snd h).symm
    · simp only [Prod.mk.injEq, Except.error.injEq] at h
      exact Or.inl ⟨_, h.1.symm⟩
    · simp at h
  · intro msg s' h
    rw [process_hint_eq] at h
    split_ifs at h with h1 h2 h3 <;> simp_all
  · intro e s' h
    rw [process_pass_eq] at h
    split_ifs at h with h1 h2 <;> simp_all
  · intro e s' h
    match guess with
    | Guess.passSentinel =>
        rw [process_guess_sentinel_eq] at h
        split_ifs at h with h1 h2 <;> simp_all
    | Guess.index i =>
        rw [process_guess_eq] at h
        split_ifs at h with h1 h2
        · simp_all
        · simp_all
        · rcases hc : s.board.cards.get? i with _ | c
          · rw [hc] at h
            simp_all
          · rw [hc] at h
            simp only at h
            split_ifs at h with hr <;> simp_all

theorem failed_calls_leave_state_witness :
    (exState0.process_hint ⟨"OCEAN ", 2⟩ exActor).2 =
      { exState0 with raw_hints := exState0.raw_hints ++ [⟨"OCEAN ", 2⟩] } :=
  (failed_calls_leave_state exState0 ⟨"OCEAN ", 2⟩ (Guess.index 0) exActor).2.1
    "hint word is on board or was already used" _ (by decide)

/-- C7: during the guesser's turn of a non-finished game, whatever the
remaining guess count, `process_pass` appends a PASS event, zeroes
`left_guesses`, flips the team, resets the role to hinter, and leaves the
board and the score (and every other field) unchanged. -/
theorem pass_ends_turn (s : GameState) (actor : Actor) (hover : s.winner = none)
    (hrole : s.current_player_role = PlayerRole.GUESSER) :
    s.process_pass actor =
      (Except.ok (),
        { s with
          history := s.history.add_event
            (GameEvent.passEvent s.current_team_color s.current_player_role actor)
          left_guesses := 0
          current_team_color := s.current_team_color.opponent
          current_player_role := PlayerRole.HINTER }) ∧
    (s.process_pass actor).2.score = s.score ∧
    (s.process_pass actor).2.board = s.board := by
  have h : s.process_pass actor =
      (Except.ok (),
        { s with
          history := s.history.add_event
            (GameEvent.passEvent s.current_team_color s.current_player_role actor)
          left_guesses := 0
          current_team_color := s.current_team_color.opponent
          current_player_role := PlayerRole.HINTER }) := by
    simp [GameState.process_pass, GameState.is_game_over, hover, hrole,
      GameState.end_turn, PlayerRole.other]
  exact ⟨h, by rw [h], by rw [h]⟩

theorem pass_ends_turn_witness :
    exState1.winner = none ∧ exState1.current_player_role = PlayerRole.GUESSER ∧
    exState1.process_pass exActor =
      (Except.ok (),
        { exState1 with
          history := exState1.history.add_event
            (GameEvent.passEvent exState1.current_team_color exState1.current_player_role exActor)
          left_guesses := 0
          current_team_color := exState1.current_team_color.opponent
          current_player_role := PlayerRole.HINTER }) :=
  ⟨by decide, by decide, (pass_ends_turn exState1 exActor (by decide) (by decide)).1⟩

/-- C6: the score evaluator `_update_score`: a gray (neutral) card changes
nothing; a black (assassin) card makes the guessing team's opponent the
winner with reason `OPPONENT_HIT_BLACK` (the spec's OPPONENT_HIT_ASSASSIN);
a team-colored card increments the affiliated team's `revealed` — also when
that is the other team's card — and that team wins with
`TARGET_SCORE_REACHED` exactly when its `revealed` then equals its
`total`. -/
theorem score_evaluator_cases (s : GameState) (gg : GivenGuess) :
    (gg.guessed_card.color = CardColor.GRAY → s.update_score gg = s) ∧
    (gg.guessed_card.color = CardColor.BLACK →
      s.update_score gg =
        { s with winner := some ⟨gg.team.opponent, WinningReason.OPPONENT_HIT_BLACK⟩ }) ∧
    (∀ t : TeamColor, gg.guessed_card.color = t.as_card_color →
      (s.update_score gg).score.for_team t =
        ⟨(s.score.for_team t).total, (s.score.for_team t).revealed + 1⟩ ∧
      (s.update_score gg).score.for_team t.opponent = s.score.for_team t.opponent ∧
      (s.update_score gg).winner =
        (if (s.score.for_team t).revealed + 1 = (s.score.for_team t).total then
          some ⟨t, WinningReason.TARGET_SCORE_REACHED⟩
        else s.winner)) := by
  refine ⟨fun h => ?_, fun h => ?_, fun t ht => ?_⟩
  · simp [GameState.update_score, h]
  · simp [GameState.update_score, h]
  · cases t <;> cases ht2 : gg.team <;>
      simp [GameState.update_score, ht, GivenGuess.correct, ht2, Score.add_point,
        TeamColor.as_card_color, TeamColor.opponent, Score.for_team] <;>
      split_ifs <;> simp_all

theorem score_evaluator_cases_witness :
    exState0.update_score ⟨⟨"water", 2, TeamColor.BLUE⟩, ⟨"code", CardColor.BLACK, true⟩⟩ =
      { exState0 with winner := some ⟨TeamColor.RED, WinningReason.OPPONENT_HIT_BLACK⟩ } :=
  (score_evaluator_cases exState0 ⟨⟨"water", 2, TeamColor.BLUE⟩, ⟨"code", CardColor.BLACK, true⟩⟩).2.1 rfl

/-- C10: a freshly built game state starts in the hinter role, and the first
team is the one with at least as many affiliated cards: BLUE when
`|blue_cards| ≥ |red_cards|` (so BLUE on a tie), RED otherwise. -/
theorem first_turn_hinter_of_larger_team (b : Board) (s : GameState)
    (h : new_game_state b = Except.ok s) :
    s.current_player_role = PlayerRole.HINTER ∧
    (b.blue_cards.length ≥ b.red_cards.length → s.current_team_color = TeamColor.BLUE) ∧
    (b.blue_cards.length < b.red_cards.length → s.current_team_color = TeamColor.RED) := by
  unfold new_game_state at h
  split at h
  · exact absurd h (by simp)
  · injection h with h'
    subst h'
    refine ⟨rfl, fun hle => ?_, fun hlt => ?_⟩
    · simp [determine_first_team, hle]
    · simp [determine_first_team]
      omega

theorem first_turn_hinter_of_larger_team_witness :
    new_game_state exBoard = Except.ok exState0 ∧
    exBoard.blue_cards.length ≥ exBoard.red_cards.length ∧
    exState0.current_player_role = PlayerRole.HINTER ∧
    exState0.current_team_color = TeamColor.BLUE :=
  ⟨by decide, by decide,
    (first_turn_hinter_of_larger_team exBoard exState0 (by decide)).1,
    (first_turn_hinter_of_larger_team exBoard exState0 (by decide)).2.1 (by decide)⟩

/-- C4: during the hinter's turn of a non-finished game, a hint is rejected
with `InvalidHint` iff its canonicalized word equals a board word or a
previously given hint word (comparison is canonical, so casing/spacing
never matter); otherwise it is accepted: the `GivenHint` is recorded, a
HINT event appended, `left_guesses` set to `card_amount + 1`, and the state
moves to the guesser role with the team unchanged. -/
theorem hint_legality (s : GameState) (hint : Hint) (actor : Actor)
    (hover : s.winner = none) (hrole : s.current_player_role = PlayerRole.HINTER) :
    ((∃ msg s', s.process_hint hint actor = (Except.error (Err.InvalidHint msg), s')) ↔
      (canonical_format hint.word ∈ s.board.all_words ∨
        canonical_format hint.word ∈ s.given_hint_words)) ∧
    (canonical_format hint.word ∉ s.illegal_hint_words →
      s.process_hint hint actor =
        (Except.ok ⟨canonical_format hint.word, hint.card_amount, s.current_team_color⟩,
          { s with
            raw_hints := s.raw_hints ++ [hint]
            given_hints := s.given_hints ++
              [⟨canonical_format hint.word, hint.card_amount, s.current_team_color⟩]
            history := s.history.add_event
              (GameEvent.hintEvent s.current_team_color PlayerRole.HINTER actor
                ⟨canonical_format hint.word, hint.card_amount, s.current_team_color⟩)
            left_guesses := (hint.card_amount : Int) + 1
            current_player_role := PlayerRole.GUESSER })) := by
  have hov : s.is_game_over = false := by simp [GameState.is_game_over, hover]
  constructor
  · constructor
    · rintro ⟨msg, s', h⟩
      rw [process_hint_eq] at h
      simp [hov, hrole] at h
      by_cases hm : canonical_format hint.word ∈ s.illegal_hint_words
      · rw [GameState.illegal_hint_words, List.mem_append] at hm
        exact hm
      · simp [hm] at h
    · intro hm
      have hm' : canonical_format hint.word ∈ s.illegal_hint_words := by
        rw [GameState.illegal_hint_words, List.mem_append]
        exact hm
      refine ⟨"hint word is on board or was already used",
        { s with raw_hints := s.raw_hints ++ [hint] }, ?_⟩
      rw [process_hint_eq]
      simp [hov, hrole, hm']
  · intro hm
    rw [process_hint_eq]
    simp [hov, hrole, hm]

theorem hint_legality_witness :
    exState0.winner = none ∧ exState0.current_player_role = PlayerRole.HINTER ∧
    canonical_format exHintWater.word ∉ exState0.illegal_hint_words ∧
    exState0.process_hint exHintWater exActor =
      (Except.ok ⟨canonical_format exHintWater.word, exHintWater.card_amount,
          exState0.current_team_color⟩,
        { exState0 with
          raw_hints := exState0.raw_hints ++ [exHintWater]
          given_hints := exState0.given_hints ++
            [⟨canonical_format exHintWater.word, exHintWater.card_amount,
              exState0.current_team_color⟩]
          history := exState0.history.add_event
            (GameEvent.hintEvent exState0.current_team_color PlayerRole.HINTER exActor
              ⟨canonical_format exHintWater.word, exHintWater.card_amount,
                exState0.current_team_color⟩)
          left_guesses := (exHintWater.card_amount : Int) + 1
          current_player_role := PlayerRole.GUESSER }) :=
  ⟨rfl, rfl, by decide,
    (hint_legality exState0 exHintWater exActor rfl rfl).2 (by decide)⟩

theorem get_set_team_same (h : GameHistory) (t : TeamColor) (th : TeamHistory) :
    (h.set_team_history t th).get_team_history t = th := by
  cases t <;> simp [GameHistory.set_team_history, GameHistory.get_team_history]

theorem get_set_team_opp (h : GameHistory) (t : TeamColor) (th : TeamHistory) :
    (h.set_team_history t th).get_team_history t.opponent = h.get_team_history t.opponent := by
  cases t <;> simp [GameHistory.set_team_history, GameHistory.get_team_history, TeamColor.opponent]

theorem set_team_global (h : GameHistory) (t : TeamColor) (th : TeamHistory) :
    (h.set_team_history t th).global_events = h.global_events := by
  cases t <;> rfl

theorem get_team_global_update (h : GameHistory) (g : List GameEvent) (t : TeamColor) :
    (({ h with global_events := g } : GameHistory)).get_team_history t = h.get_team_history t := by
  cases t <;> rfl

theorem add_event_global (h : GameHistory) (e : GameEvent) :
    (h.add_event e).global_events = h.global_events ++ [e] := by
  unfold GameHistory.add_event
  cases e <;> simp [set_team_global]

theorem end_turn_history (s : GameState) (b : Bool) : (s.end_turn b).history = s.history := rfl

theorem update_score_frame (s : GameState) (gg : GivenGuess) :
    (s.update_score gg).history = s.history ∧
    (s.update_score gg).board = s.board ∧
    (s.update_score gg).given_hints = s.given_hints ∧
    (s.update_score gg).given_guesses = s.given_guesses ∧
    (s.update_score gg).left_guesses = s.left_guesses ∧
    (s.update_score gg).current_team_color = s.current_team_color ∧
    (s.update_score gg).current_player_role = s.current_player_role := by
  unfold GameState.update_score
  dsimp only
  repeat' split
  all_goals simp

/-- C9: `add_event` appends the event exactly once to its own team's
bucket of the matching sub-kind, exactly once to that team's `all_events`,
and exactly once to the global timeline, each by a tail append (so
insertion order is preserved in every view); the other team's history is
untouched; and no state-machine operation ever removes or rewrites a
previously appended event (the prior global timeline is always a prefix
of the new one). -/
theorem ledger_append_only (h : GameHistory) (e : GameEvent) :
    (h.add_event e).global_events = h.global_events ++ [e] ∧
    ((h.add_event e).get_team_history e.team_color).all_events =
      (h.get_team_history e.team_color).all_events ++ [e] ∧
    (∀ t r a hint, e = GameEvent.hintEvent t r a hint →
      ((h.add_event e).get_team_history t).hints_given =
        (h.get_team_history t).hints_given ++ [e] ∧
      ((h.add_event e).get_team_history t).guesses_made = (h.get_team_history t).guesses_made ∧
      ((h.add_event e).get_team_history t).chat_messages = (h.get_team_history t).chat_messages ∧
      ((h.add_event e).get_team_history t).passes = (h.get_team_history t).passes) ∧
    (∀ t r a guess, e = GameEvent.guessEvent t r a guess →
      ((h.add_event e).get_team_history t).guesses_made =
        (h.get_team_history t).guesses_made ++ [e] ∧
      ((h.add_event e).get_team_history t).hints_given = (h.get_team_history t).hints_given ∧
      ((h.add_event e).get_team_history t).chat_messages = (h.get_team_history t).chat_messages ∧
      ((h.add_event e).get_team_history t).passes = (h.get_team_history t).passes) ∧
    (∀ t r a msg, e = GameEvent.chatEvent t r a msg →
      ((h.add_event e).get_team_history t).chat_messages =
        (h.get_team_history t).chat_messages ++ [e] ∧
      ((h.add_event e).get_team_history t).hints_given = (h.get_team_history t).hints_given ∧
      ((h.add_event e).get_team_history t).guesses_made = (h.get_team_history t).guesses_made ∧
      ((h.add_event e).get_team_history t).passes = (h.get_team_history t).passes) ∧
    (∀ t r a, e = GameEvent.passEvent t r a →
      ((h.add_event e).get_team_history t).passes =
        (h.get_team_history t).passes ++ [e] ∧
      ((h.add_event e).get_team_history t).hints_given = (h.get_team_history t).hints_given ∧
      ((h.add_event e).get_team_history t).guesses_made = (h.get_team_history t).guesses_made ∧
      ((h.add_event e).get_team_history t).chat_messages = (h.get_team_history t).chat_messages) ∧
    (h.add_event e).get_team_history e.team_color.opponent =
      h.get_team_history e.team_color.opponent ∧
    (∀ (s : GameState) (hint : Hint) (actor : Actor),
      List.IsPrefix s.history.global_events
        ((s.process_hint hint actor).2).history.global_events) ∧
    (∀ (s : GameState) (actor : Actor),
      List.IsPrefix s.history.global_events
        ((s.process_pass actor).2).history.global_events) ∧
    (∀ (s : GameState) (guess : Guess) (actor : Actor),
      List.IsPrefix s.history.global_events
        ((s.process_guess guess actor).2).history.global_events) := by
  refine ⟨add_event_global h e, ?_, ?_, ?_, ?_, ?_, ?_, ?_, ?_, ?_⟩
  · unfold GameHistory.add_event
    cases e <;>
      simp [get_team_global_update, get_set_team_same, TeamHistory.add_hint,
        TeamHistory.add_guess, TeamHistory.add_chat, TeamHistory.add_pass, GameEvent.team_color]
  · rintro t r a hint rfl
    unfold GameHistory.add_event
    simp [get_team_global_update, get_set_team_same, TeamHistory.add_hint, GameEvent.team_color]
  · rintro t r a guess rfl
    unfold GameHistory.add_event
    simp [get_team_global_update, get_set_team_same, TeamHistory.add_guess, GameEvent.team_color]
  · rintro t r a msg rfl
    unfold GameHistory.add_event
    simp [get_team_global_update, get_set_team_same, TeamHistory.add_chat, GameEvent.team_color]
  · rintro t r a rfl
    unfold GameHistory.add_event
    simp [get_team_global_update, get_set_team_same, TeamHistory.add_pass, GameEvent.team_color]
  · unfold GameHistory.add_event
    cases e <;> simp [get_team_global_update, get_set_team_opp, GameEvent.team_color]
  · intro s hint actor
    rw [process_hint_eq]
    split_ifs <;> simp [add_event_global, List.prefix_append]
  · intro s actor
    rw [process_pass_eq]
    split_ifs <;> simp [add_event_global, List.prefix_append]
  · intro s guess actor
    match guess with
    | Guess.passSentinel =>
        rw [process_guess_sentinel_eq]
        split_ifs <;> simp
    | Guess.index i =>
        rw [process_guess_eq]
        split_ifs with h1 h2
        · simp
        · simp
        · rcases hc : s.board.cards.get? i with _ | c
          · simp
          · by_cases hr : c.revealed = true
            · simp [hr]
            · simp only [hr, Bool.false_eq_true, if_false]
              split_ifs <;>
                simp [end_turn_history, (update_score_frame _ _).1, add_event_global,
                  List.prefix_append]

theorem ledger_append_only_witness :
    let e := GameEvent.hintEvent TeamColor.BLUE PlayerRole.HINTER exActor ⟨"water", 2, TeamColor.BLUE⟩
    let h : GameHistory := {}
    (h.add_event e).global_events = h.global_events ++ [e] ∧
    ((h.add_event e).get_team_history TeamColor.BLUE).hints_given =
      (h.get_team_history TeamColor.BLUE).hints_given ++ [e] :=
  ⟨(ledger_append_only {} _).1,
    ((ledger_append_only {} _).2.2.1 TeamColor.BLUE PlayerRole.HINTER exActor
      ⟨"water", 2, TeamColor.BLUE⟩ rfl).1⟩

theorem get?_set_self {α : Type} (l : List α) (i : Nat) (a : α) (c : α)
    (hc : l.get? i = some c) : (l.set i a).get? i = some a := by
  induction l generalizing i with
  | nil => simp at hc
  | cons x xs ih => cases i <;> simp_all [List.set]

theorem reveal_at_get (b : Board) (i : Nat) (c : Card) (hc : b.cards.get? i = some c) :
    (b.reveal_at i).cards.get? i = some { c with revealed := true } := by
  unfold Board.reveal_at
  rw [hc]
  exact get?_set_self b.cards i _ c hc

/-- C5: during the guesser's turn of a non-finished game (so after some
hint; a guesser turn is only reachable through `process_hint`), a guess
fails with `InvalidGuess` — and changes nothing — on the pass sentinel, an
index that resolves to no board card, or an already revealed card;
otherwise the card is revealed, the `GivenGuess` recorded, a GUESS event
appended, and then: a produced winner ends the game (every further
transition is rejected with `GameIsOver`); a wrong (opponent/neutral) guess
ends the turn (team flips, role resets to hinter); a correct own-team guess
decrements `left_guesses`, ending the turn exactly when the count is
exhausted and otherwise keeping the same team in the guesser role with the
decremented count. -/
theorem guess_transitions (s : GameState) (actor : Actor)
    (hover : s.winner = none) (hrole : s.current_player_role = PlayerRole.GUESSER)
    (hhints : s.given_hints ≠ []) :
    (∃ msg, s.process_guess Guess.passSentinel actor = (Except.error (Err.InvalidGuess msg), s)) ∧
    (∀ i, s.board.cards.get? i = none →
      ∃ msg, s.process_guess (Guess.index i) actor = (Except.error (Err.InvalidGuess msg), s)) ∧
    (∀ i c, s.board.cards.get? i = some c → c.revealed = true →
      ∃ msg, s.process_guess (Guess.index i) actor = (Except.error (Err.InvalidGuess msg), s)) ∧
    (∀ i c, s.board.cards.get? i = some c → c.revealed = false →
      ∃ s', s.process_guess (Guess.index i) actor =
          (Except.ok ⟨s.last_given_hint, { c with revealed := true }⟩, s') ∧
        s'.board.cards.get? i = some { c with revealed := true } ∧
        s'.given_guesses =
          s.given_guesses ++ [⟨s.last_given_hint, { c with revealed := true }⟩] ∧
        s'.history.global_events = s.history.global_events ++
          [GameEvent.guessEvent s.current_team_color s.current_player_role actor
            ⟨s.last_given_hint, { c with revealed := true }⟩] ∧
        (s'.is_game_over = true →
          (∀ h2 a2, (s'.process_hint h2 a2).1 = Except.error Err.GameIsOver) ∧
          (∀ g2 a2, (s'.process_guess g2 a2).1 = Except.error Err.GameIsOver) ∧
          (∀ a2, (s'.process_pass a2).1 = Except.error Err.GameIsOver)) ∧
        (s'.winner = none →
          (⟨s.last_given_hint, { c with revealed := true }⟩ : GivenGuess).correct = false →
          s'.current_team_color = s.current_team_color.opponent ∧
          s'.current_player_role = PlayerRole.HINTER ∧ s'.left_guesses = 0) ∧
        (s'.winner = none →
          (⟨s.last_given_hint, { c with revealed := true }⟩ : GivenGuess).correct = true →
          (s.left_guesses - 1 > 0 →
            s'.current_team_color = s.current_team_color ∧
            s'.current_player_role = PlayerRole.GUESSER ∧
            s'.left_guesses = s.left_guesses - 1) ∧
          (s.left_guesses - 1 ≤ 0 →
            s'.current_team_color = s.current_team_color.opponent ∧
            s'.current_player_role = PlayerRole.HINTER ∧ s'.left_guesses = 0))) := by
  have hov : s.is_game_over = false := by simp [GameState.is_game_over, hover]
  refine ⟨?_, ?_, ?_, ?_⟩
  · rw [process_guess_sentinel_eq]
    refine ⟨"use process_pass to pass", ?_⟩
    simp [hov, hrole]
  · intro i hc
    rw [process_guess_eq]
    refine ⟨"card index out of range", ?_⟩
    rw [hc]
    simp [hov, hrole]
  · intro i c hc hr
    rw [process_guess_eq]
    refine ⟨"card already revealed", ?_⟩
    rw [hc]
    simp [hov, hrole, hr]
  · intro i c hc hr
    have heq := process_guess_eq s i actor
    rw [if_neg (by simp [hov]), if_neg (by simp [hrole]), hc] at heq
    dsimp only at heq
    rw [if_neg (by simp [hr])] at heq
    set gg : GivenGuess := ⟨s.last_given_hint, { c with revealed := true }⟩ with hgg
    set s₂ : GameState :=
      { s with
        board := s.board.reveal_at i
        given_guesses := s.given_guesses ++ [gg]
        history := s.history.add_event
          (GameEvent.guessEvent s.current_team_color s.current_player_role actor gg) } with hs₂
    set s₃ := s₂.update_score gg with hs₃
    have hframe := update_score_frame s₂ gg
    have hb₃ : s₃.board = s.board.reveal_at i := hframe.2.1
    have hgg₃ : s₃.given_guesses = s.given_guesses ++ [gg] := hframe.2.2.2.1
    have hh₃ : s₃.history.global_events = s.history.global_events ++
        [GameEvent.guessEvent s.current_team_color s.current_player_role actor gg] := by
      rw [show s₃.history = s₂.history from hframe.1]
      exact add_event_global _ _
    have hl₃ : s₃.left_guesses = s.left_guesses := hframe.2.2.2.2.1
    have ht₃ : s₃.current_team_color = s.current_team_color := hframe.2.2.2.2.2.1
    have hr₃ : s₃.current_player_role = s.current_player_role := hframe.2.2.2.2.2.2
    by_cases h3 : s₃.is_game_over = true
    · rw [if_pos h3] at heq
      refine ⟨s₃.end_turn true, heq, ?_, ?_, ?_, ?_, ?_, ?_⟩
      · show (s₃.end_turn true).board.cards.get? i = _
        rw [show (s₃.end_turn true).board = s₃.board from rfl, hb₃]
        exact reveal_at_get s.board i c hc
      · rw [show (s₃.end_turn true).given_guesses = s₃.given_guesses from rfl, hgg₃]
      · rw [show (s₃.end_turn true).history = s₃.history from rfl, hh₃]
      · intro hgo
        exact ⟨fun h2 a2 => by rw [(rejects_when_over _ hgo).1 h2 a2],
          fun g2 a2 => by rw [(rejects_when_over _ hgo).2.1 g2 a2],
          fun a2 => by rw [(rejects_when_over _ hgo).2.2 a2]⟩
      · intro hw
        rw [show (s₃.end_turn true).winner = s₃.winner from rfl] at hw
        rw [GameState.is_game_over, hw] at h3
        simp at h3
      · intro hw
        rw [show (s₃.end_turn true).winner = s₃.winner from rfl] at hw
        rw [GameState.is_game_over, hw] at h3
        simp at h3
    · rw [if_neg h3] at heq
      have hwin₃ : s₃.winner = none := by
        rw [GameState.is_game_over] at h3
        exact Option.not_isSome_iff_eq_none.mp (by simpa using h3)
      by_cases h4 : gg.correct = true
      · rw [if_neg (by simp [h4])] at heq
        rw [hl₃] at heq
        by_cases h5 : s.left_guesses - 1 > 0
        · rw [if_pos h5] at heq
          refine ⟨_, heq, ?_, ?_, ?_, ?_, ?_, ?_⟩
          · show ({ s₃ with left_guesses := s.left_guesses - 1 } :
                GameState).board.cards.get? i = _
            rw [show ({ s₃ with left_guesses := s.left_guesses - 1 } :
              GameState).board = s₃.board from rfl, hb₃]
            exact reveal_at_get s.board i c hc
          · rw [show ({ s₃ with left_guesses := s.left_guesses - 1 } :
              GameState).given_guesses = s₃.given_guesses from rfl, hgg₃]
          · rw [show ({ s₃ with left_guesses := s.left_guesses - 1 } :
              GameState).history = s₃.history from rfl, hh₃]
          · intro hgo
            rw [show ({ s₃ with left_guesses := s.left_guesses - 1 } :
              GameState).is_game_over = s₃.is_game_over from rfl] at hgo
            exact absurd hgo h3
          · intro _ hcor
            rw [hcor] at h4
            simp at h4
          · intro _ _
            refine ⟨fun _ => ⟨?_, ?_, rfl⟩, fun h5' => absurd h5 (by omega)⟩
            · rw [show ({ s₃ with left_guesses := s.left_guesses - 1 } :
                GameState).current_team_color = s₃.current_team_color from rfl, ht₃]
            · rw [show ({ s₃ with left_guesses := s.left_guesses - 1 } :
                GameState).current_player_role = s₃.current_player_role from rfl, hr₃, hrole]
        · rw [if_neg h5] at heq
          refine ⟨_, heq, ?_, ?_, ?_, ?_, ?_, ?_⟩
          · show (({ s₃ with left_guesses := s.left_guesses - 1 } :
                GameState).end_turn true).board.cards.get? i = _
            rw [show (({ s₃ with left_guesses := s.left_guesses - 1 } :
              GameState).end_turn true).board = s₃.board from rfl, hb₃]
            exact reveal_at_get s.board i c hc
          · rw [show (({ s₃ with left_guesses := s.left_guesses - 1 } :
              GameState).end_turn true).given_guesses = s₃.given_guesses from rfl, hgg₃]
          · rw [show (({ s₃ with left_guesses := s.left_guesses - 1 } :
              GameState).end_turn true).history = s₃.history from rfl, hh₃]
          · intro hgo
            rw [show (({ s₃ with left_guesses := s.left_guesses - 1 } :
              GameState).end_turn true).is_game_over = s₃.is_game_over from rfl] at hgo
            exact absurd hgo h3
          · intro _ hcor
            rw [hcor] at h4
            simp at h4
          · intro _ _
            refine ⟨fun h5' => absurd h5' h5, fun _ => ⟨?_, ?_, rfl⟩⟩
            · rw [show (({ s₃ with left_guesses := s.left_guesses - 1 } :
                GameState).end_turn true).current_team_color =
                s₃.current_team_color.opponent from rfl, ht₃]
            · rw [show (({ s₃ with left_guesses := s.left_guesses - 1 } :
                GameState).end_turn true).current_player_role =
                s₃.current_player_role.other from rfl, hr₃, hrole]
              rfl
      · rw [if_pos (by simpa using h4)] at heq
        refine ⟨s₃.end_turn true, heq, ?_, ?_, ?_, ?_, ?_, ?_⟩
        · show (s₃.end_turn true).board.cards.get? i = _
          rw [show (s₃.end_turn true).board = s₃.board from rfl, hb₃]
          exact reveal_at_get s.board i c hc
        · rw [show (s₃.end_turn true).given_guesses = s₃.given_guesses from rfl, hgg₃]
        · rw [show (s₃.end_turn true).history = s₃.history from rfl, hh₃]
        · intro hgo
          rw [show (s₃.end_turn true).is_game_over = s₃.is_game_over from rfl] at hgo
          exact absurd hgo h3
        · intro _ _
          refine ⟨?_, ?_, rfl⟩
          · rw [show (s₃.end_turn true).current_team_color =
              s₃.current_team_color.opponent from rfl, ht₃]
          · rw [show (s₃.end_turn true).current_player_role =
              s₃.current_player_role.other from rfl, hr₃, hrole]
            rfl
        · intro _ hcor
          exact absurd hcor h4

theorem guess_transitions_witness :
    exState1.winner = none ∧ exState1.current_player_role = PlayerRole.GUESSER ∧
    exState1.given_hints ≠ [] ∧
    (∃ msg, exState1.process_guess Guess.passSentinel exActor =
      (Except.error (Err.InvalidGuess msg), exState1)) :=
  ⟨by decide, by decide, by decide,
    (guess_transitions exState1 exActor (by decide) (by decide) (by decide)).1⟩

theorem mem_firstOccsAux (a : String) :
    ∀ (l : List String) (seen : List String),
      a ∈ firstOccsAux seen l ↔ a ∈ l ∧ a ∉ seen := by
  intro l
  induction l with
  | nil => intro seen; simp [firstOccsAux]
  | cons v vs ih =>
      intro seen
      rw [firstOccsAux]
      by_cases hv : v ∈ seen
      · rw [if_pos hv, ih]
        constructor
        · rintro ⟨h1, h2⟩
          exact ⟨List.mem_cons_of_mem _ h1, h2⟩
        · rintro ⟨h1, h2⟩
          rcases List.mem_cons.mp h1 with rfl | h1
          · exact absurd hv h2
          · exact ⟨h1, h2⟩
      · rw [if_neg hv]
        simp only [List.mem_cons, ih]
        constructor
        · rintro (rfl | ⟨h1, h2⟩)
          · exact ⟨Or.inl rfl, hv⟩
          · exact ⟨Or.inr h1, fun hs => h2 (Or.inr hs)⟩
        · rintro ⟨rfl | h1, h2⟩
          · exact Or.inl rfl
          · by_cases hav : a = v
            · exact Or.inl hav
            · exact Or.inr ⟨h1, fun hs => by
                rcases hs with rfl | hs
                · exact hav rfl
                · exact h2 hs⟩

theorem mem_firstOccs (l : List String) (a : String) : a ∈ firstOccs l ↔ a ∈ l := by
  rw [firstOccs, mem_firstOccsAux]
  simp

theorem topChoice_cons_isSome (count : String → Nat) (a : String) (ks : List String) :
    ∃ p, topChoice count (a :: ks) = some p := by
  rw [topChoice]
  cases htc : topChoice count ks with
  | none => exact ⟨_, rfl⟩
  | some p =>
      obtain ⟨bk, bc⟩ := p
      dsimp only
      by_cases h : count a ≥ bc
      · rw [if_pos h]
        exact ⟨_, rfl⟩
      · rw [if_neg h]
        exact ⟨_, rfl⟩

theorem topChoice_none (count : String → Nat) (ks : List String)
    (h : topChoice count ks = none) : ks = [] := by
  cases ks with
  | nil => rfl
  | cons a ks =>
      obtain ⟨p, hp⟩ := topChoice_cons_isSome count a ks
      rw [hp] at h
      simp at h

theorem topChoice_spec (count : String → Nat) :
    ∀ (ks : List String) (k : String) (c : Nat), topChoice count ks = some (k, c) →
      k ∈ ks ∧ c = count k ∧ ∀ j ∈ ks, count j ≤ c := by
  intro ks
  induction ks with
  | nil => intro k c h; simp [topChoice] at h
  | cons a ks ih =>
      intro k c h
      rw [topChoice] at h
      rcases hb : topChoice count ks with _ | ⟨bk, bc⟩
      · rw [hb] at h
        simp only [Option.some.injEq, Prod.mk.injEq] at h
        obtain ⟨rfl, rfl⟩ := h
        refine ⟨List.mem_cons_self _ _, rfl, ?_⟩
        intro j hj
        have hks := topChoice_none count ks hb
        subst hks
        rcases List.mem_cons.mp hj with rfl | hj
        · exact le_refl _
        · simp at hj
      · rw [hb] at h
        dsimp only at h
        obtain ⟨hbk, hbc, hmax⟩ := ih bk bc hb
        by_cases hge : count a ≥ bc
        · rw [if_pos hge] at h
          simp only [Option.some.injEq, Prod.mk.injEq] at h
          obtain ⟨rfl, rfl⟩ := h
          refine ⟨List.mem_cons_self _ _, rfl, ?_⟩
          intro j hj
          rcases List.mem_cons.mp hj with rfl | hj
          · exact le_refl _
          · exact le_trans (hmax j hj) hge
        · rw [if_neg hge] at h
          simp only [Option.some.injEq, Prod.mk.injEq] at h
          obtain ⟨rfl, rfl⟩ := h
          refine ⟨List.mem_cons_of_mem _ hbk, hbc, ?_⟩
          intro j hj
          rcases List.mem_cons.mp hj with rfl | hj
          · omega
          · exact hmax j hj

theorem topChoice_strict (count : String → Nat) :
    ∀ (ks : List String) (k : String), k ∈ ks →
      (∀ j ∈ ks, j ≠ k → count j < count k) →
      topChoice count ks = some (k, count k) := by
  intro ks
  induction ks with
  | nil => intro k hk; simp at hk
  | cons a ks ih =>
      intro k hk hmax
      rw [topChoice]
      rcases hb : topChoice count ks with _ | ⟨bk, bc⟩
      · have hks := topChoice_none count ks hb
        subst hks
        simp only [List.mem_cons, List.not_mem_nil, or_false] at hk
        subst hk
        rfl
      · dsimp only
        obtain ⟨hbk, hbc, hmaxb⟩ := topChoice_spec count ks bk bc hb
        by_cases hak : a = k
        · subst hak
          have hle : bc ≤ count a := by
            by_cases hbka : bk = a
            · rw [hbc, hbka]
            · exact le_of_lt (hbc ▸ hmax bk (List.mem_cons_of_mem _ hbk) hbka)
          rw [if_pos hle]
        · have hk' : k ∈ ks := by
            rcases List.mem_cons.mp hk with rfl | hk'
            · exact absurd rfl hak
            · exact hk'
          have ihh := ih k hk' (fun j hj hjk => hmax j (List.mem_cons_of_mem _ hj) hjk)
          rw [hb] at ihh
          simp only [Option.some.injEq, Prod.mk.injEq] at ihh
          obtain ⟨rfl, rfl⟩ := ihh
          have hlt : count a < count bk := hmax a (List.mem_cons_self _ _) hak
          rw [if_neg (by omega)]

theorem countVote_pair (votes : List String) (w₁ w₂ : String) (hne : w₁ ≠ w₂) :
    countVote votes w₁ + countVote votes w₂ ≤ votes.length := by
  induction votes with
  | nil => simp [countVote]
  | cons v vs ih =>
      unfold countVote at ih ⊢
      by_cases h1 : normalize_vote v = w₁
      · by_cases h2 : normalize_vote v = w₂
        · exact absurd (h1.symm.trans h2) hne
        · simp [List.filter_cons, h1, h2, hne, Ne.symm hne]
          omega
      · by_cases h2 : normalize_vote v = w₂
        · simp [List.filter_cons, h1, h2, hne, Ne.symm hne]
          omega
        · simp [List.filter_cons, h1, h2]
          omega

/-- C3: `collect_majority_vote` tallies the current votes case-insensitively
(each vote is lowercased and stripped) and, provided there is one vote per
agent (`votes.length ≤ quorum`), returns a choice iff that choice's tally is
a strict majority of the registered voter count (`2 * count > quorum`, i.e.
`count > quorum // 2`); in particular with 3 agents, votes
`["ocean","ocean","river"]` select "ocean" while `["ocean","river","pass"]`
yield no majority. -/
theorem collect_majority_vote_spec (votes : List String) (quorum : Nat)
    (hlen : votes.length ≤ quorum) :
    (∀ w, collect_majority_vote votes quorum = some w →
      w ∈ votes.map normalize_vote ∧ 2 * countVote votes w > quorum) ∧
    (∀ w, w ∈ votes.map normalize_vote → 2 * countVote votes w > quorum →
      collect_majority_vote votes quorum = some w) ∧
    collect_majority_vote ["ocean", "ocean", "river"] 3 = some "ocean" ∧
    collect_majority_vote ["ocean", "river", "pass"] 3 = none := by
  refine ⟨?_, ?_, by decide, by decide⟩
  · intro w h
    unfold collect_majority_vote at h
    rcases ht : topChoice (countVote votes) (firstOccs (votes.map normalize_vote))
      with _ | ⟨tw, tc⟩
    · rw [ht] at h
      simp at h
    · rw [ht] at h
      dsimp only at h
      by_cases hcq : tc > quorum / 2
      · rw [if_pos hcq] at h
        simp only [Option.some.injEq] at h
        subst h
        obtain ⟨hmem, hcount, _⟩ := topChoice_spec _ _ _ _ ht
        refine ⟨(mem_firstOccs _ _).mp hmem, ?_⟩
        omega
      · rw [if_neg hcq] at h
        simp at h
  · intro w hmem hcount
    have hw_in : w ∈ firstOccs (votes.map normalize_vote) := (mem_firstOccs _ _).mpr hmem
    have hstrict : ∀ j ∈ firstOccs (votes.map normalize_vote), j ≠ w →
        countVote votes j < countVote votes w := by
      intro j hj hjw
      have hpair := countVote_pair votes j w hjw
      omega
    have ht := topChoice_strict (countVote votes) _ w hw_in hstrict
    unfold collect_majority_vote
    rw [ht]
    dsimp only
    rw [if_pos (by omega : countVote votes w > quorum / 2)]

theorem collect_majority_vote_spec_witness :
    (["ocean", "ocean", "river"] : List String).length ≤ 3 ∧
    collect_majority_vote ["ocean", "ocean", "river"] 3 = some "ocean" ∧
    collect_majority_vote ["ocean", "river", "pass"] 3 = none :=
  ⟨by decide,
    (collect_majority_vote_spec ["ocean", "ocean", "river"] 3 (by decide)).2.2.1,
    (collect_majority_vote_spec ["ocean", "river", "pass"] 3 (by decide)).2.2.2⟩

theorem majorityStep_cases (ctx : CoordCtx) (st : LoopSt) :
    majorityStep ctx st = StepOut.continueSt st ∨
    (∃ r, majorityStep ctx st = StepOut.exitR r ∧ r.sawMajority = true ∧ r.polls = st.polls) ∨
    (∃ st', majorityStep ctx st = StepOut.breakRound st' ∧ st'.sawMajority = true ∧
      st'.polls = st.polls) := by
  unfold majorityStep
  cases hm : collect_majority_vote (st.votes.map Prod.snd) ctx.ops.length with
  | none => exact Or.inl rfl
  | some m =>
      dsimp only
      by_cases h1 : m = ""
      · rw [if_pos h1]
        exact Or.inl rfl
      · rw [if_neg h1]
        by_cases h2 : m = "pass"
        · rw [if_pos h2]
          rcases hgp : game_pass_turn st.game ctx.teamActor with ⟨res, g'⟩
          dsimp only
          exact Or.inr (Or.inl ⟨_, rfl, rfl, rfl⟩)
        · rw [if_neg h2]
          rcases hmg : game_make_guess st.game m ctx.teamActor with ⟨res, g'⟩
          cases res with
          | error e =>
              dsimp only
              exact Or.inr (Or.inl ⟨_, rfl, rfl, rfl⟩)
          | ok r =>
              dsimp only
              by_cases h3 : r.is_game_over = true
              · rw [if_pos h3]
                exact Or.inr (Or.inl ⟨_, rfl, rfl, rfl⟩)
              · rw [if_neg h3]
                by_cases h4 : g'.current_team_color ≠ ctx.team_turn ∨
                    g'.current_player_role ≠ PlayerRole.GUESSER
                · rw [if_pos h4]
                  exact Or.inr (Or.inl ⟨_, rfl, rfl, rfl⟩)
                · rw [if_neg h4]
                  exact Or.inr (Or.inr ⟨_, rfl, rfl, rfl⟩)

theorem majorityStep_shape (ctx : CoordCtx) (g : GameState)
    (v : List (String × String)) (p : Nat) (b : Bool) :
    (∃ r, majorityStep ctx ⟨g, v, p, b⟩ = StepOut.exitR r ∧
      r.sawMajority = true ∧ r.polls = p) ∨
    (∃ st', majorityStep ctx ⟨g, v, p, b⟩ = StepOut.continueSt st' ∧
      st'.sawMajority = b ∧ st'.polls ≤ p) ∨
    (∃ st', majorityStep ctx ⟨g, v, p, b⟩ = StepOut.breakRound st' ∧
      st'.sawMajority = true ∧ st'.polls = p) := by
  rcases majorityStep_cases ctx ⟨g, v, p, b⟩ with h | ⟨r, h, h1, h2⟩ | ⟨st', h, h1, h2⟩
  · exact Or.inr (Or.inl ⟨_, h, rfl, le_refl _⟩)
  · exact Or.inl ⟨r, h, h1, h2⟩
  · exact Or.inr (Or.inr ⟨st', h, h1, h2⟩)

theorem stepAgent_cases (ctx : CoordCtx) (ag : OperativeAgent) (st : LoopSt) :
    (∃ r, stepAgent ctx ag st = StepOut.exitR r ∧
      ((r.exitKind = ExitKind.turnChanged ∧ r.sawMajority = st.sawMajority ∧
          r.polls = st.polls) ∨
        (r.sawMajority = true ∧ r.polls = st.polls + 1))) ∨
    (∃ st', stepAgent ctx ag st = StepOut.continueSt st' ∧
      st'.sawMajority = st.sawMajority ∧ st'.polls ≤ st.polls + 1) ∨
    (∃ st', stepAgent ctx ag st = StepOut.breakRound st' ∧ st'.sawMajority = true ∧
      st'.polls = st.polls + 1) := by
  unfold stepAgent
  by_cases h0 : st.game.current_team_color ≠ ctx.team_turn ∨
      st.game.current_player_role ≠ PlayerRole.GUESSER
  · rw [if_pos h0]
    exact Or.inl ⟨_, rfl, Or.inl ⟨rfl, rfl, rfl⟩⟩
  · rw [if_neg h0]
    dsimp only
    cases hresp : ctx.oracle st.polls with
    | talk msg =>
        dsimp only
        rcases majorityStep_shape ctx _ _ (st.polls + 1) st.sawMajority with
          ⟨r, ho, h1, h2⟩ | ⟨st', ho, h1, h2⟩ | ⟨st', ho, h1, h2⟩
        · exact Or.inl ⟨r, ho, Or.inr ⟨h1, h2⟩⟩
        · exact Or.inr (Or.inl ⟨st', ho, h1, h2⟩)
        · exact Or.inr (Or.inr ⟨st', ho, h1, h2⟩)
    | voteWord w =>
        dsimp only
        by_cases hw : pyStrip w = ""
        · rw [if_pos hw]
          rcases majorityStep_shape ctx _ _ (st.polls + 1) st.sawMajority with
            ⟨r, ho, h1, h2⟩ | ⟨st', ho, h1, h2⟩ | ⟨st', ho, h1, h2⟩
          · exact Or.inl ⟨r, ho, Or.inr ⟨h1, h2⟩⟩
          · exact Or.inr (Or.inl ⟨st', ho, h1, h2⟩)
          · exact Or.inr (Or.inr ⟨st', ho, h1, h2⟩)
        · rw [if_neg hw]
          cases hfi : st.game.board.find_card_index (pyStrip w) with
          | none =>
              dsimp only
              exact Or.inr (Or.inl ⟨_, rfl, rfl, by simp⟩)
          | some card_index =>
              dsimp only
              by_cases hrev : (st.game.board.cards.getD card_index default).revealed = true
              · rw [if_pos hrev]
                exact Or.inr (Or.inl ⟨_, rfl, rfl, by simp⟩)
              · rw [if_neg hrev]
                rcases majorityStep_shape ctx _ _ (st.polls + 1) st.sawMajority with
                  ⟨r, ho, h1, h2⟩ | ⟨st', ho, h1, h2⟩ | ⟨st', ho, h1, h2⟩
                · exact Or.inl ⟨r, ho, Or.inr ⟨h1, h2⟩⟩
                · exact Or.inr (Or.inl ⟨st', ho, h1, h2⟩)
                · exact Or.inr (Or.inr ⟨st', ho, h1, h2⟩)
    | votePass =>
        dsimp only
        rcases majorityStep_shape ctx _ _ (st.polls + 1) st.sawMajority with
          ⟨r, ho, h1, h2⟩ | ⟨st', ho, h1, h2⟩ | ⟨st', ho, h1, h2⟩
        · exact Or.inl ⟨r, ho, Or.inr ⟨h1, h2⟩⟩
        · exact Or.inr (Or.inl ⟨st', ho, h1, h2⟩)
        · exact Or.inr (Or.inr ⟨st', ho, h1, h2⟩)
    | unknown =>
        dsimp only
        rcases majorityStep_shape ctx _ _ (st.polls + 1) st.sawMajority with
          ⟨r, ho, h1, h2⟩ | ⟨st', ho, h1, h2⟩ | ⟨st', ho, h1, h2⟩
        · exact Or.inl ⟨r, ho, Or.inr ⟨h1, h2⟩⟩
        · exact Or.inr (Or.inl ⟨st', ho, h1, h2⟩)
        · exact Or.inr (Or.inr ⟨st', ho, h1, h2⟩)

theorem agentLoop_spec (ctx : CoordCtx) :
    ∀ (agents : List OperativeAgent) (st : LoopSt),
      (∃ r, agentLoop ctx agents st = InnerOut.exit r ∧
        r.polls ≤ st.polls + agents.length ∧
        (r.sawMajority = false →
          st.sawMajority = false ∧ r.exitKind = ExitKind.turnChanged)) ∨
      (∃ st', agentLoop ctx agents st = InnerOut.nextRound st' ∧
        st'.polls ≤ st.polls + agents.length) := by
  intro agents
  induction agents with
  | nil =>
      intro st
      exact Or.inr ⟨st, rfl, by simp⟩
  | cons ag rest ih =>
      intro st
      rw [agentLoop]
      rcases stepAgent_cases ctx ag st with
        ⟨r, hs, hr⟩ | ⟨st', hs, hsaw, hpolls⟩ | ⟨st', hs, hsaw, hpolls⟩ <;>
        rw [hs] <;> dsimp only
      · refine Or.inl ⟨r, rfl, ?_, ?_⟩
        · rcases hr with ⟨_, _, hp⟩ | ⟨_, hp⟩ <;> rw [hp] <;>
            simp only [List.length_cons] <;> omega
        · intro hf
          rcases hr with ⟨hk, hsw, _⟩ | ⟨hsw, _⟩
          · exact ⟨by rw [← hsw]; exact hf, hk⟩
          · rw [hsw] at hf
            exact absurd hf (by simp)
      · rcases ih st' with ⟨r, h2, hp2, hf2⟩ | ⟨st'', h2, hp2⟩
        · refine Or.inl ⟨r, h2, by simp only [List.length_cons]; omega, ?_⟩
          intro hf
          obtain ⟨hst', hk⟩ := hf2 hf
          exact ⟨by rw [← hsaw]; exact hst', hk⟩
        · exact Or.inr ⟨st'', h2, by simp only [List.length_cons]; omega⟩
      · exact Or.inr ⟨st', rfl, by simp only [List.length_cons]; omega⟩

theorem roundLoop_spec (ctx : CoordCtx) :
    ∀ (fuel : Nat) (st : LoopSt),
      (roundLoop ctx fuel st).polls ≤ st.polls + fuel * ctx.ops.length ∧
      ((roundLoop ctx fuel st).sawMajority = false →
        (roundLoop ctx fuel st).exitKind = ExitKind.turnChanged ∨
        ((roundLoop ctx fuel st).exitKind = ExitKind.fallbackPass ∧
          (roundLoop ctx fuel st).passSubmitted = true)) := by
  intro fuel
  induction fuel with
  | zero =>
      intro st
      rw [roundLoop]
      rcases hgp : game_pass_turn st.game ctx.teamActor with ⟨res, g'⟩
      dsimp only
      exact ⟨by simp, fun _ => Or.inr ⟨rfl, rfl⟩⟩
  | succ n ih =>
      intro st
      rw [roundLoop]
      rcases agentLoop_spec ctx ctx.ops st with ⟨r, h2, hp, hf⟩ | ⟨st', h2, hp⟩ <;>
        rw [h2] <;> dsimp only
      · constructor
        · have hmul : ctx.ops.length ≤ (n + 1) * ctx.ops.length :=
            Nat.le_mul_of_pos_left _ (Nat.succ_pos n)
          omega
        · intro hf'
          exact Or.inl (hf hf').2
      · obtain ⟨ihp, ihf⟩ := ih st'
        refine ⟨?_, ihf⟩
        have hmul : (n + 1) * ctx.ops.length = n * ctx.ops.length + ctx.ops.length :=
          Nat.succ_mul n ctx.ops.length
        omega

/-- C8: for a non-empty list of registered agents (with `ops = []` the
program raises `IndexError` at `ops[0]`, `run_agents.py` line 641, before
submitting any pass, so that corner is excluded), the coordinator's
guessing loop always terminates within `max_rounds` rounds — it makes at
most `max_rounds * |ops|` agent polls, however adversarial the agent
responses — and when those rounds are exhausted without any vote tally
ever crossing the strict-majority check, the loop's only remaining exits
are the no-active-hint return, the turn-changed return, and the fallback
in which the coordinator unilaterally submits a pass. -/
theorem guesser_turn_bounded_fallback (oracle : Nat → AgentResponse) (g : GameState)
    (ops : List OperativeAgent) (max_rounds : Nat) (hops : ops ≠ []) :
    (guesser_turn oracle g ops max_rounds).polls ≤ max_rounds * ops.length ∧
    ((guesser_turn oracle g ops max_rounds).sawMajority = false →
      (guesser_turn oracle g ops max_rounds).exitKind = ExitKind.noHint ∨
      (guesser_turn oracle g ops max_rounds).exitKind = ExitKind.turnChanged ∨
      ((guesser_turn oracle g ops max_rounds).exitKind = ExitKind.fallbackPass ∧
        (guesser_turn oracle g ops max_rounds).passSubmitted = true)) := by
  unfold guesser_turn
  dsimp only
  by_cases hg : g.given_hints = []
  · rw [if_pos hg]
    exact ⟨by simp, fun _ => Or.inl rfl⟩
  · rw [if_neg hg]
    obtain ⟨hp, hf⟩ :=
      roundLoop_spec
        (CoordCtx.mk oracle ops g.current_team_color
          ⟨ActorType.LLM, g.current_team_color.pyName ++ "-team",
            some (ops.headD default).model⟩)
        max_rounds (LoopSt.mk g [] 0 false)
    exact ⟨by simpa using hp, fun h' => Or.inr (hf h')⟩

theorem guesser_turn_bounded_fallback_witness :
    ([exOperative] : List OperativeAgent) ≠ [] ∧
    (guesser_turn oracleUnknown exState1 [exOperative] 1).sawMajority = false ∧
    (guesser_turn oracleUnknown exState1 [exOperative] 1).polls ≤ 1 * 1 ∧
    ((guesser_turn oracleUnknown exState1 [exOperative] 1).exitKind = ExitKind.noHint ∨
      (guesser_turn oracleUnknown exState1 [exOperative] 1).exitKind = ExitKind.turnChanged ∨
      ((guesser_turn oracleUnknown exState1 [exOperative] 1).exitKind = ExitKind.fallbackPass ∧
        (guesser_turn oracleUnknown exState1 [exOperative] 1).passSubmitted = true)) :=
  ⟨by decide, by decide,
    (guesser_turn_bounded_fallback oracleUnknown exState1 [exOperative] 1 (by decide)).1,
    (guesser_turn_bounded_fallback oracleUnknown exState1 [exOperative] 1 (by decide)).2
      (by decide)⟩

end Codenames
